import Mathlib

/-!
# Verification of the node_hash_comparison shared-buffer hash pipeline

A shallow embedding of the producer/consumer shared-buffer hash pipeline:
the worker-hasher (consumer) and worker-reader (producer) agents, the
control-word handshake (status 0 = READY, 1 = DATA_AVAILABLE, 2 = EOF),
the per-algorithm hash-adapter dispatch, and the digest rendering.

Machine integers are modelled as `Nat` with explicit `% 2 ^ w` where
overflow matters.  Fallible code returns `Except` / `Option`.
-/

/-! ## Hexadecimal rendering

The workers render digests with JavaScript's `toString(16)` (for `Number`
and `BigInt` values) and with Node's `hash.digest('hex')`.  Both produce
lowercase hexadecimal; `toString(16)` produces the minimal-length string
(no leading zeros; `"0"` for zero), while `digest('hex')` is fixed-width.
We model digits as naturals below 16, then map them to characters. -/

/-- The lowercase hexadecimal character for a digit (`0`–`15`). -/
def hexDigitChar (d : Nat) : Char :=
  if d = 0 then '0' else if d = 1 then '1' else if d = 2 then '2'
  else if d = 3 then '3' else if d = 4 then '4' else if d = 5 then '5'
  else if d = 6 then '6' else if d = 7 then '7' else if d = 8 then '8'
  else if d = 9 then '9' else if d = 10 then 'a' else if d = 11 then 'b'
  else if d = 12 then 'c' else if d = 13 then 'd' else if d = 14 then 'e'
  else if d = 15 then 'f' else '0'

/-- Numeric value of a lowercase hexadecimal character (`16` if not one). -/
def hexCharVal (c : Char) : Nat :=
  if c = '0' then 0 else if c = '1' then 1 else if c = '2' then 2
  else if c = '3' then 3 else if c = '4' then 4 else if c = '5' then 5
  else if c = '6' then 6 else if c = '7' then 7 else if c = '8' then 8
  else if c = '9' then 9 else if c = 'a' then 10 else if c = 'b' then 11
  else if c = 'c' then 12 else if c = 'd' then 13 else if c = 'e' then 14
  else if c = 'f' then 15 else 16

/-- A character is a lowercase hexadecimal digit. -/
def isLowerHexChar (c : Char) : Bool := hexCharVal c < 16

/-- Every character of the string is a lowercase hexadecimal digit. -/
def strIsLowerHex (s : String) : Bool := s.toList.all isLowerHexChar

/-- Minimal-length base-16 digit list of `n` (most significant first,
empty for `0`); `fuel` bounds the recursion and any `fuel ≥ n` is exact. -/
def hexDigitsAux : Nat → Nat → List Nat
  | 0, _ => []
  | fuel + 1, n => if n = 0 then [] else hexDigitsAux fuel (n / 16) ++ [n % 16]

/-- Base-16 digit list of `n`, minimal length, `[0]` for zero: the digit
sequence produced by JavaScript's `Number`/`BigInt` `toString(16)` on a
nonnegative integer. -/
def hexDigits (n : Nat) : List Nat := if n = 0 then [0] else hexDigitsAux n n

/-- JavaScript `toString(16)` of a nonnegative integer: minimal-length
lowercase hexadecimal, `"0"` for zero. -/
def hexStr (n : Nat) : String := ⟨(hexDigits n).map hexDigitChar⟩

/-- Fixed-width base-16 digit list (width `k`, most significant first). -/
def hexFixedDigits : Nat → Nat → List Nat
  | 0, _ => []
  | k + 1, n => hexFixedDigits k (n / 16) ++ [n % 16]

/-- Value denoted by a hexadecimal string (most significant digit first). -/
def hexToNat (s : String) : Nat :=
  (s.toList.map hexCharVal).foldl (fun a d => a * 16 + d) 0

theorem hexCharVal_hexDigitChar : ∀ d, d < 16 → hexCharVal (hexDigitChar d) = d := by
  decide

theorem hexDigitsAux_lt (fuel n : Nat) : ∀ d ∈ hexDigitsAux fuel n, d < 16 := by
  induction fuel generalizing n with
  | zero => intro d h; simp [hexDigitsAux] at h
  | succ fuel ih =>
    intro d h
    simp only [hexDigitsAux] at h
    by_cases h0 : n = 0
    · simp [h0] at h
    · simp only [h0, if_false, List.mem_append, List.mem_singleton] at h
      rcases h with h | h
      · exact ih (n / 16) d h
      · subst h; exact Nat.mod_lt _ (by omega)

theorem hexDigits_lt (n : Nat) : ∀ d ∈ hexDigits n, d < 16 := by
  intro d h
  by_cases h0 : n = 0
  · simp [hexDigits, h0] at h; omega
  · simp only [hexDigits, h0, if_false] at h
    exact hexDigitsAux_lt n n d h

theorem hexDigitsAux_foldl (fuel : Nat) :
    ∀ n a, n ≤ fuel →
      (hexDigitsAux fuel n).foldl (fun x d => x * 16 + d) a =
        a * 16 ^ (hexDigitsAux fuel n).length + n := by
  induction fuel with
  | zero =>
    intro n a h
    have : n = 0 := Nat.le_zero.mp h
    simp [hexDigitsAux, this]
  | succ fuel ih =>
    intro n a h
    by_cases h0 : n = 0
    · simp [hexDigitsAux, h0]
    · have hdiv : n / 16 ≤ fuel := by
        have := Nat.div_lt_self (Nat.pos_of_ne_zero h0) (by omega : 1 < 16)
        omega
      simp only [hexDigitsAux, h0, if_false]
      rw [List.foldl_append, ih (n / 16) a hdiv]
      simp only [List.foldl_cons, List.foldl_nil, List.length_append,
        List.length_singleton]
      rw [pow_succ]
      have := Nat.div_add_mod n 16
      ring_nf
      omega

/-- `hexDigits` denotes the number it was built from. -/
theorem hexDigits_foldl (n : Nat) :
    (hexDigits n).foldl (fun x d => x * 16 + d) 0 = n := by
  by_cases h0 : n = 0
  · simp [hexDigits, h0]
  · simp only [hexDigits, h0, if_false]
    rw [hexDigitsAux_foldl n n 0 (le_refl n)]
    simp

/-- `hexStr` renders only lowercase hexadecimal digits. -/
theorem strIsLowerHex_hexStr (n : Nat) : strIsLowerHex (hexStr n) = true := by
  simp only [strIsLowerHex, hexStr, String.toList, List.all_eq_true]
  intro c hc
  rcases List.mem_map.mp hc with ⟨d, hd, rfl⟩
  have := hexDigits_lt n d hd
  simp only [isLowerHexChar, hexCharVal_hexDigitChar d this]
  exact decide_eq_true this

/-- Rendering with `hexStr` loses no information: the string reads back to
the exact unsigned value (no sign interpretation, no precision loss). -/
theorem hexToNat_hexStr (n : Nat) : hexToNat (hexStr n) = n := by
  simp only [hexToNat, hexStr, String.toList]
  rw [List.map_map]
  have hmap : (hexDigits n).map (hexCharVal ∘ hexDigitChar) = hexDigits n := by
    apply List.map_congr_left ?_ |>.trans (List.map_id _)
    intro d hd
    exact hexCharVal_hexDigitChar d (hexDigits_lt n d hd)
  rw [hmap, hexDigits_foldl]

/-! ## CRC-32C (Castagnoli)

Model of the external `@node-rs/crc32` `crc32c(input, initialState)`
function called by the worker-hasher: the standard reflected CRC-32C with
polynomial `0x82F63B78`, initial and final complement, and an explicit
seed so that computation can be resumed (the worker threads the running
value through successive calls: `crc = crc32c(chunk, crc)`). -/

/-- One bit step of the reflected CRC-32C. -/
def crcBit (c : Nat) : Nat :=
  if c % 2 = 1 then (c / 2) ^^^ 0x82F63B78 else c / 2

/-- Eight bit steps. -/
def crcBits : Nat → Nat → Nat
  | 0, c => c
  | k + 1, c => crcBits k (crcBit c)

/-- One byte step of CRC-32C. -/
def crcByte (c b : Nat) : Nat := crcBits 8 (c ^^^ b % 256)

/-- CRC-32C of `data` resumed from running value `seed` (`0` to start):
model of `crc32c(data, seed)` from `@node-rs/crc32`. -/
def crc32c (data : List Nat) (seed : Nat) : Nat :=
  (data.foldl crcByte (seed ^^^ 0xFFFFFFFF)) ^^^ 0xFFFFFFFF

theorem xor_xor_self (a m : Nat) : (a ^^^ m) ^^^ m = a := by
  rw [Nat.xor_assoc, Nat.xor_self, Nat.xor_zero]

/-- Resuming CRC-32C from the running value of a prefix computes the
CRC-32C of the concatenation: the streaming law the worker-hasher relies
on when it threads `crc` through per-chunk calls. -/
theorem crc32c_append (a b : List Nat) (seed : Nat) :
    crc32c b (crc32c a seed) = crc32c (a ++ b) seed := by
  simp only [crc32c, xor_xor_self, List.foldl_append]

/-- CRC-32C of the empty list is the seed itself. -/
theorem crc32c_nil (seed : Nat) : crc32c [] seed = seed := by
  simp only [crc32c, List.foldl_nil, xor_xor_self]

/-! ## The zero-byte step of CRC-32C as a GF(2)-linear map

The C1 counterexample needs the CRC-32C of runs of a million zero bytes.
Evaluating the byte fold a million steps inside the kernel is
impractical, but one zero-byte step of the remainder fold is linear over
GF(2) — it commutes with `^^^` — so it is determined by its images of
the 32 bit-basis vectors.  Powers of the step are computed by verified
squaring of 32-entry basis-image tables, each squaring a small concrete
`decide`. -/

/-- One zero-byte step of the CRC-32C remainder fold. -/
def crcZStep (c : Nat) : Nat := crcByte c 0

/-- Apply the GF(2)-linear map with basis images `t` (entry `i` is the
image of `2 ^ i`) to `c`. -/
def linApply : List Nat → Nat → Nat
  | [], _ => 0
  | t :: ts, c => (if c % 2 = 1 then t else 0) ^^^ linApply ts (c / 2)

/-- The basis-image table of `L` on the low `k` bits. -/
def tblOf (L : Nat → Nat) : Nat → List Nat
  | 0 => []
  | k + 1 => L 1 :: tblOf (fun x => L (2 * x)) k

/-- Compose two basis-image tables (`A` after `B`). -/
def compT (A B : List Nat) : List Nat := B.map (linApply A)

theorem xor_mix (a b c d : Nat) :
    (a ^^^ b) ^^^ (c ^^^ d) = (a ^^^ c) ^^^ (b ^^^ d) := by
  rw [Nat.xor_assoc, Nat.xor_assoc]
  congr 1
  rw [← Nat.xor_assoc, ← Nat.xor_assoc]
  congr 1
  exact Nat.xor_comm b c

theorem two_mul_xor (a b : Nat) : 2 * a ^^^ 2 * b = 2 * (a ^^^ b) := by
  have h1 : (2 * a ^^^ 2 * b) % 2 = 0 := by
    rw [Nat.xor_mod_two_eq]
    omega
  have h2 : (2 * a ^^^ 2 * b) / 2 = a ^^^ b := by
    rw [Nat.xor_div_two, Nat.mul_div_cancel_left a (by omega : 0 < 2),
      Nat.mul_div_cancel_left b (by omega : 0 < 2)]
  omega

theorem linApply_zero (t : List Nat) : linApply t 0 = 0 := by
  induction t with
  | nil => rfl
  | cons x ts ih => simp [linApply, ih]

theorem linApply_xor (t : List Nat) :
    ∀ a b, linApply t (a ^^^ b) = linApply t a ^^^ linApply t b := by
  induction t with
  | nil => intro a b; simp [linApply]
  | cons x ts ih =>
    intro a b
    simp only [linApply]
    rw [Nat.xor_div_two, ih (a / 2) (b / 2), xor_mix]
    congr 1
    rcases Nat.mod_two_eq_zero_or_one a with ha | ha <;>
      rcases Nat.mod_two_eq_zero_or_one b with hb | hb <;>
      simp [Nat.xor_mod_two_eq, Nat.add_mod, ha, hb]

theorem linApply_compT (A B : List Nat) :
    ∀ c, linApply (compT A B) c = linApply A (linApply B c) := by
  induction B with
  | nil => intro c; simp [compT, linApply, linApply_zero]
  | cons b bs ih =>
    intro c
    simp only [compT, List.map_cons, linApply]
    simp only [compT] at ih
    rw [ih (c / 2), linApply_xor A]
    congr 1
    rcases Nat.mod_two_eq_zero_or_one c with hc | hc
    · simp [hc, linApply_zero]
    · simp [hc]

theorem linApply_tblOf : ∀ (k : Nat) (L : Nat → Nat), L 0 = 0 →
    (∀ a b, L (a ^^^ b) = L a ^^^ L b) →
    ∀ c, c < 2 ^ k → linApply (tblOf L k) c = L c := by
  intro k
  induction k with
  | zero =>
    intro L h0 _ c hc
    have h1 : (2 : Nat) ^ 0 = 1 := rfl
    rw [h1] at hc
    have hc0 : c = 0 := by omega
    subst hc0
    rw [h0]
    rfl
  | succ k ih =>
    intro L h0 hx c hc
    have hdz : L (2 * 0) = 0 := by rw [Nat.mul_zero, h0]
    have hdl : ∀ a b, L (2 * (a ^^^ b)) = L (2 * a) ^^^ L (2 * b) := by
      intro a b
      rw [← two_mul_xor, hx]
    have hc2 : c / 2 < 2 ^ k := by
      have hp : (2 : Nat) ^ (k + 1) = 2 * 2 ^ k := by
        rw [pow_succ]
        ring
      omega
    have hih : linApply (tblOf (fun x => L (2 * x)) k) (c / 2) = L (2 * (c / 2)) :=
      ih (fun x => L (2 * x)) hdz hdl (c / 2) hc2
    simp only [tblOf, linApply]
    rw [hih]
    rcases Nat.mod_two_eq_zero_or_one c with hc0 | hc1
    · have h2 : 2 * (c / 2) = c := by omega
      simp [hc0, h2]
    · have hxc : 1 ^^^ 2 * (c / 2) = c := by
        have hm : (1 ^^^ 2 * (c / 2)) % 2 = 1 := by
          rw [Nat.xor_mod_two_eq]
          omega
        have hd : (1 ^^^ 2 * (c / 2)) / 2 = c / 2 := by
          rw [Nat.xor_div_two, Nat.mul_div_cancel_left _ (by omega : 0 < 2)]
          have ho : (1 : Nat) / 2 = 0 := rfl
          rw [ho, Nat.zero_xor]
        omega
      simp only [hc1, if_pos]
      rw [← hx 1 (2 * (c / 2)), hxc]

theorem crcBit_xor (a b : Nat) : crcBit (a ^^^ b) = crcBit a ^^^ crcBit b := by
  rcases Nat.mod_two_eq_zero_or_one a with ha | ha <;>
    rcases Nat.mod_two_eq_zero_or_one b with hb | hb
  · have hab : (a ^^^ b) % 2 = 0 := by
      rw [Nat.xor_mod_two_eq]
      omega
    unfold crcBit
    rw [if_neg (by omega : ¬(a ^^^ b) % 2 = 1), if_neg (by omega : ¬a % 2 = 1),
      if_neg (by omega : ¬b % 2 = 1), Nat.xor_div_two]
  · have hab : (a ^^^ b) % 2 = 1 := by
      rw [Nat.xor_mod_two_eq]
      omega
    unfold crcBit
    rw [if_pos hab, if_neg (by omega : ¬a % 2 = 1), if_pos hb, Nat.xor_div_two,
      Nat.xor_assoc]
  · have hab : (a ^^^ b) % 2 = 1 := by
      rw [Nat.xor_mod_two_eq]
      omega
    unfold crcBit
    rw [if_pos hab, if_pos ha, if_neg (by omega : ¬b % 2 = 1), Nat.xor_div_two,
      Nat.xor_assoc, Nat.xor_assoc, Nat.xor_comm (b / 2) 0x82F63B78]
  · have hab : (a ^^^ b) % 2 = 0 := by
      rw [Nat.xor_mod_two_eq]
      omega
    unfold crcBit
    rw [if_neg (by omega : ¬(a ^^^ b) % 2 = 1), if_pos ha, if_pos hb, Nat.xor_div_two,
      xor_mix, Nat.xor_self, Nat.xor_zero]

theorem crcBits_xor (k : Nat) :
    ∀ a b, crcBits k (a ^^^ b) = crcBits k a ^^^ crcBits k b := by
  induction k with
  | zero => intro a b; rfl
  | succ k ih =>
    intro a b
    simp only [crcBits]
    rw [crcBit_xor]
    exact ih _ _

theorem crcZStep_eq_bits (c : Nat) : crcZStep c = crcBits 8 c := by
  simp [crcZStep, crcByte]

theorem crcZStep_zero : crcZStep 0 = 0 := by decide

theorem crcZStep_xor (a b : Nat) :
    crcZStep (a ^^^ b) = crcZStep a ^^^ crcZStep b := by
  simp only [crcZStep_eq_bits]
  exact crcBits_xor 8 a b

theorem crcBit_lt {c : Nat} (h : c < 2 ^ 32) : crcBit c < 2 ^ 32 := by
  unfold crcBit
  split
  · exact Nat.xor_lt_two_pow (by omega) (by norm_num)
  · omega

theorem crcBits_lt (k : Nat) : ∀ {c : Nat}, c < 2 ^ 32 → crcBits k c < 2 ^ 32 := by
  induction k with
  | zero => intro c h; exact h
  | succ k ih =>
    intro c h
    simp only [crcBits]
    exact ih (crcBit_lt h)

theorem crcZStep_lt {c : Nat} (h : c < 2 ^ 32) : crcZStep c < 2 ^ 32 := by
  rw [crcZStep_eq_bits]
  exact crcBits_lt 8 h

theorem crcZStep_iter_lt (n : Nat) {c : Nat} (h : c < 2 ^ 32) :
    crcZStep^[n] c < 2 ^ 32 := by
  induction n with
  | zero => exact h
  | succ n ih =>
    rw [Function.iterate_succ_apply']
    exact crcZStep_lt ih

/-- Basis-image table of `crcZStep^[1]` on 32 bits. -/
def crcZT0 : List Nat :=
  [0xf26b8303, 0xe13b70f7, 0xc79a971f, 0x8ad958cf,
   0x105ec76f, 0x20bd8ede, 0x417b1dbc, 0x82f63b78,
   0x00000001, 0x00000002, 0x00000004, 0x00000008,
   0x00000010, 0x00000020, 0x00000040, 0x00000080,
   0x00000100, 0x00000200, 0x00000400, 0x00000800,
   0x00001000, 0x00002000, 0x00004000, 0x00008000,
   0x00010000, 0x00020000, 0x00040000, 0x00080000,
   0x00100000, 0x00200000, 0x00400000, 0x00800000]

/-- Basis-image table of `crcZStep^[2]` on 32 bits. -/
def crcZT1 : List Nat :=
  [0x13a29877, 0x274530ee, 0x4e8a61dc, 0x9d14c3b8,
   0x3fc5f181, 0x7f8be302, 0xff17c604, 0xfbc3faf9,
   0xf26b8303, 0xe13b70f7, 0xc79a971f, 0x8ad958cf,
   0x105ec76f, 0x20bd8ede, 0x417b1dbc, 0x82f63b78,
   0x00000001, 0x00000002, 0x00000004, 0x00000008,
   0x00000010, 0x00000020, 0x00000040, 0x00000080,
   0x00000100, 0x00000200, 0x00000400, 0x00000800,
   0x00001000, 0x00002000, 0x00004000, 0x00008000]

/-- Basis-image table of `crcZStep^[4]` on 32 bits. -/
def crcZT2 : List Nat :=
  [0xdd45aab8, 0xbf672381, 0x7b2231f3, 0xf64463e6,
   0xe964b13d, 0xd725148b, 0xaba65fe7, 0x52a0c93f,
   0xa541927e, 0x4f6f520d, 0x9edea41a, 0x38513ec5,
   0x70a27d8a, 0xe144fb14, 0xc76580d9, 0x8b277743,
   0x13a29877, 0x274530ee, 0x4e8a61dc, 0x9d14c3b8,
   0x3fc5f181, 0x7f8be302, 0xff17c604, 0xfbc3faf9,
   0xf26b8303, 0xe13b70f7, 0xc79a971f, 0x8ad958cf,
   0x105ec76f, 0x20bd8ede, 0x417b1dbc, 0x82f63b78]

/-- Basis-image table of `crcZStep^[8]` on 32 bits. -/
def crcZT3 : List Nat :=
  [0x493c7d27, 0x9278fa4e, 0x211d826d, 0x423b04da,
   0x847609b4, 0x0d006599, 0x1a00cb32, 0x34019664,
   0x68032cc8, 0xd0065990, 0xa5e0c5d1, 0x4e2dfd53,
   0x9c5bfaa6, 0x3d5b83bd, 0x7ab7077a, 0xf56e0ef4,
   0xef306b19, 0xdb8ca0c3, 0xb2f53777, 0x6006181f,
   0xc00c303e, 0x85f4168d, 0x0e045beb, 0x1c08b7d6,
   0x38116fac, 0x7022df58, 0xe045beb0, 0xc5670b91,
   0x8f2261d3, 0x1ba8b557, 0x37516aae, 0x6ea2d55c]

/-- Basis-image table of `crcZStep^[16]` on 32 bits. -/
def crcZT4 : List Nat :=
  [0xf20c0dfe, 0xe1f46d0d, 0xc604aceb, 0x89e52f27,
   0x162628bf, 0x2c4c517e, 0x5898a2fc, 0xb13145f8,
   0x678efd01, 0xcf1dfa02, 0x9bd782f5, 0x3243731b,
   0x6486e636, 0xc90dcc6c, 0x97f7ee29, 0x2a03aaa3,
   0x54075546, 0xa80eaa8c, 0x55f123e9, 0xabe247d2,
   0x5228f955, 0xa451f2aa, 0x4d4f93a5, 0x9a9f274a,
   0x30d23865, 0x61a470ca, 0xc348e194, 0x837db5d9,
   0x03171d43, 0x062e3a86, 0x0c5c750c, 0x18b8ea18]

/-- Basis-image table of `crcZStep^[32]` on 32 bits. -/
def crcZT5 : List Nat :=
  [0x3da6d0cb, 0x7b4da196, 0xf69b432c, 0xe8daf0a9,
   0xd45997a3, 0xad5f59b7, 0x5f52c59f, 0xbea58b3e,
   0x78a7608d, 0xf14ec11a, 0xe771f4c5, 0xcb0f9f7b,
   0x93f34807, 0x220ae6ff, 0x4415cdfe, 0x882b9bfc,
   0x15bb4109, 0x2b768212, 0x56ed0424, 0xadda0848,
   0x5e586661, 0xbcb0ccc2, 0x7c8def75, 0xf91bdeea,
   0xf7dbcb25, 0xea5be0bb, 0xd15bb787, 0xa75b19ff,
   0x4b5a450f, 0x96b48a1e, 0x288562cd, 0x510ac59a]

/-- Basis-image table of `crcZStep^[64]` on 32 bits. -/
def crcZT6 : List Nat :=
  [0x740eef02, 0xe81dde04, 0xd5d7caf9, 0xae43e303,
   0x596bb0f7, 0xb2d761ee, 0x6042b52d, 0xc0856a5a,
   0x84e6a245, 0x0c21327b, 0x184264f6, 0x3084c9ec,
   0x610993d8, 0xc21327b0, 0x81ca3991, 0x067805d3,
   0x0cf00ba6, 0x19e0174c, 0x33c02e98, 0x67805d30,
   0xcf00ba60, 0x9bed0231, 0x32367293, 0x646ce526,
   0xc8d9ca4c, 0x945fe269, 0x2d53b223, 0x5aa76446,
   0xb54ec88c, 0x6f71e7e9, 0xdee3cfd2, 0xb82be955]

/-- Basis-image table of `crcZStep^[128]` on 32 bits. -/
def crcZT7 : List Nat :=
  [0x6992cea2, 0xd3259d44, 0xa3a74c79, 0x42a2ee03,
   0x8545dc06, 0x0f67cefd, 0x1ecf9dfa, 0x3d9f3bf4,
   0x7b3e77e8, 0xf67cefd0, 0xe915a951, 0xd7c72453,
   0xaa623e57, 0x51280a5f, 0xa25014be, 0x414c5f8d,
   0x8298bf1a, 0x00dd08c5, 0x01ba118a, 0x03742314,
   0x06e84628, 0x0dd08c50, 0x1ba118a0, 0x37423140,
   0x6e846280, 0xdd08c500, 0xbffdfcf1, 0x7a178f13,
   0xf42f1e26, 0xedb24abd, 0xde88e38b, 0xb8fdb1e7]

/-- Basis-image table of `crcZStep^[256]` on 32 bits. -/
def crcZT8 : List Nat :=
  [0xdcb17aa4, 0xbc8e83b9, 0x7cf17183, 0xf9e2e306,
   0xf629b0fd, 0xe9bf170b, 0xd69258e7, 0xa8c8c73f,
   0x547df88f, 0xa8fbf11e, 0x541b94cd, 0xa837299a,
   0x558225c5, 0xab044b8a, 0x53e4e1e5, 0xa7c9c3ca,
   0x4a7ff165, 0x94ffe2ca, 0x2c13b365, 0x582766ca,
   0xb04ecd94, 0x6571edd9, 0xcae3dbb2, 0x902bc195,
   0x25bbf5db, 0x4b77ebb6, 0x96efd76c, 0x2833d829,
   0x5067b052, 0xa0cf60a4, 0x4472b7b9, 0x88e56f72]

/-- Basis-image table of `crcZStep^[512]` on 32 bits. -/
def crcZT9 : List Nat :=
  [0xbd6f81f8, 0x7f337501, 0xfe66ea02, 0xf921a2f5,
   0xf7af331b, 0xeab210c7, 0xd088577f, 0xa4fcd80f,
   0x4c15c6ef, 0x982b8dde, 0x35bb6d4d, 0x6b76da9a,
   0xd6edb534, 0xa8371c99, 0x55824fc3, 0xab049f86,
   0x53e549fd, 0xa7ca93fa, 0x4a795105, 0x94f2a20a,
   0x2c0932e5, 0x581265ca, 0xb024cb94, 0x65a5e1d9,
   0xcb4bc3b2, 0x937bf195, 0x231b95db, 0x46372bb6,
   0x8c6e576c, 0x1d30d829, 0x3a61b052, 0x74c360a4]

/-- Basis-image table of `crcZStep^[1024]` on 32 bits. -/
def crcZT10 : List Nat :=
  [0xfe314258, 0xf98ef241, 0xf6f19273, 0xe80f5217,
   0xd5f2d2df, 0xae09d34f, 0x59ffd06f, 0xb3ffa0de,
   0x6213374d, 0xc4266e9a, 0x8da0abc5, 0x1ead217b,
   0x3d5a42f6, 0x7ab485ec, 0xf5690bd8, 0xef3e6141,
   0xdb90b473, 0xb2cd1e17, 0x60764adf, 0xc0ec95be,
   0x84355d8d, 0x0d86cdeb, 0x1b0d9bd6, 0x361b37ac,
   0x6c366f58, 0xd86cdeb0, 0xb535cb91, 0x6f87e1d3,
   0xdf0fc3a6, 0xbbf3f1bd, 0x720b958b, 0xe4172b16]

/-- Basis-image table of `crcZStep^[2048]` on 32 bits. -/
def crcZT11 : List Nat :=
  [0xf7506984, 0xeb4ca5f9, 0xd3753d03, 0xa3060cf7,
   0x43e06f1f, 0x87c0de3e, 0x0a6dca8d, 0x14db951a,
   0x29b72a34, 0x536e5468, 0xa6dca8d0, 0x48552751,
   0x90aa4ea2, 0x24b8ebb5, 0x4971d76a, 0x92e3aed4,
   0x202b2b59, 0x405656b2, 0x80acad64, 0x04b52c39,
   0x096a5872, 0x12d4b0e4, 0x25a961c8, 0x4b52c390,
   0x96a58720, 0x28a778b1, 0x514ef162, 0xa29de2c4,
   0x40d7b379, 0x81af66f2, 0x06b2bb15, 0x0d65762a]

/-- Basis-image table of `crcZStep^[4096]` on 32 bits. -/
def crcZT12 : List Nat :=
  [0xc2a5b65e, 0x80a71a4d, 0x04a2426b, 0x094484d6,
   0x128909ac, 0x25121358, 0x4a2426b0, 0x94484d60,
   0x2d7cec31, 0x5af9d862, 0xb5f3b0c4, 0x6e0b1779,
   0xdc162ef2, 0xbdc02b15, 0x7e6c20db, 0xfcd841b6,
   0xfc5cf59d, 0xfd559dcb, 0xff474d67, 0xfb62ec3f,
   0xf329ae8f, 0xe3bf2bef, 0xc292212f, 0x80c834af,
   0x047c1faf, 0x08f83f5e, 0x11f07ebc, 0x23e0fd78,
   0x47c1faf0, 0x8f83f5e0, 0x1aeb9d31, 0x35d73a62]

/-- Basis-image table of `crcZStep^[8192]` on 32 bits. -/
def crcZT13 : List Nat :=
  [0xe040e0ac, 0xc56db7a9, 0x8f3719a3, 0x1b8245b7,
   0x37048b6e, 0x6e0916dc, 0xdc122db8, 0xbdc82d81,
   0x7e7c2df3, 0xfcf85be6, 0xfc1cc13d, 0xfdd5f48b,
   0xfe479fe7, 0xf963493f, 0xf72ae48f, 0xebb9bfef,
   0xd29f092f, 0xa0d264af, 0x4448bfaf, 0x88917f5e,
   0x14ce884d, 0x299d109a, 0x533a2134, 0xa6744268,
   0x4904f221, 0x9209e442, 0x21ffbe75, 0x43ff7cea,
   0x87fef9d4, 0x0a118559, 0x14230ab2, 0x28461564]

/-- Basis-image table of `crcZStep^[16384]` on 32 bits. -/
def crcZT14 : List Nat :=
  [0xc7cacead, 0x8a79ebab, 0x111fa1a7, 0x223f434e,
   0x447e869c, 0x88fd0d38, 0x14166c81, 0x282cd902,
   0x5059b204, 0xa0b36408, 0x448abee1, 0x89157dc2,
   0x17c68d75, 0x2f8d1aea, 0x5f1a35d4, 0xbe346ba8,
   0x7984a1a1, 0xf3094342, 0xe3fef075, 0xc211961b,
   0x81cf5ac7, 0x0672c37f, 0x0ce586fe, 0x19cb0dfc,
   0x33961bf8, 0x672c37f0, 0xce586fe0, 0x995ca931,
   0x37552493, 0x6eaa4926, 0xdd54924c, 0xbf455269]

/-- Basis-image table of `crcZStep^[32768]` on 32 bits. -/
def crcZT15 : List Nat :=
  [0x04fcdcbf, 0x09f9b97e, 0x13f372fc, 0x27e6e5f8,
   0x4fcdcbf0, 0x9f9b97e0, 0x3adb5931, 0x75b6b262,
   0xeb6d64c4, 0xd336bf79, 0xa3810803, 0x42ee66f7,
   0x85dccdee, 0x0e55ed2d, 0x1cabda5a, 0x3957b4b4,
   0x72af6968, 0xe55ed2d0, 0xcf51d351, 0x9b4fd053,
   0x3373d657, 0x66e7acae, 0xcdcf595c, 0x9e72c449,
   0x3909fe63, 0x7213fcc6, 0xe427f98c, 0xcda385e9,
   0x9eab7d23, 0x38ba8cb7, 0x7175196e, 0xe2ea32dc]

/-- Basis-image table of `crcZStep^[65536]` on 32 bits. -/
def crcZT16 : List Nat :=
  [0x6bafcc21, 0xd75f9842, 0xab534675, 0x534afa1b,
   0xa695f436, 0x48c79e9d, 0x918f3d3a, 0x26f20c85,
   0x4de4190a, 0x9bc83214, 0x327c12d9, 0x64f825b2,
   0xc9f04b64, 0x960ce039, 0x29f5b683, 0x53eb6d06,
   0xa7d6da0c, 0x4a41c2e9, 0x948385d2, 0x2ceb7d55,
   0x59d6faaa, 0xb3adf554, 0x62b79c59, 0xc56f38b2,
   0x8f320795, 0x1b8879db, 0x3710f3b6, 0x6e21e76c,
   0xdc43ced8, 0xbd6beb41, 0x7f3ba073, 0xfe7740e6]

/-- Basis-image table of `crcZStep^[131072]` on 32 bits. -/
def crcZT17 : List Nat :=
  [0x140441c6, 0x2808838c, 0x50110718, 0xa0220e30,
   0x45a86a91, 0x8b50d522, 0x134ddcb5, 0x269bb96a,
   0x4d3772d4, 0x9a6ee5a8, 0x3131bda1, 0x62637b42,
   0xc4c6f684, 0x8c619bf9, 0x1d2f4103, 0x3a5e8206,
   0x74bd040c, 0xe97a0818, 0xd71866c1, 0xabdcbb73,
   0x52550017, 0xa4aa002e, 0x4cb876ad, 0x9970ed5a,
   0x370dac45, 0x6e1b588a, 0xdc36b114, 0xbd8114d9,
   0x7eee5f43, 0xfddcbe86, 0xfe550bfd, 0xf946610b]

/-- Basis-image table of `crcZStep^[262144]` on 32 bits. -/
def crcZT18 : List Nat :=
  [0x68175a0a, 0xd02eb414, 0xa5b11ed9, 0x4e8e4b43,
   0x9d1c9686, 0x3fd55bfd, 0x7faab7fa, 0xff556ff4,
   0xfb46a919, 0xf36124c3, 0xe32e3f77, 0xc3b0081f,
   0x828c66cf, 0x00f4bb6f, 0x01e976de, 0x03d2edbc,
   0x07a5db78, 0x0f4bb6f0, 0x1e976de0, 0x3d2edbc0,
   0x7a5db780, 0xf4bb6f00, 0xec9aa8f1, 0xdcd92713,
   0xbc5e38d7, 0x7d50075f, 0xfaa00ebe, 0xf0ac6b8d,
   0xe4b4a1eb, 0xcc853527, 0x9ce61cbf, 0x3c204f8f]

/-- Basis-image table of `crcZStep^[524288]` on 32 bits. -/
def crcZT19 : List Nat :=
  [0xe1ff3667, 0xc6121a3f, 0x89c8428f, 0x167cf3ef,
   0x2cf9e7de, 0x59f3cfbc, 0xb3e79f78, 0x62234801,
   0xc4469002, 0x8d6156f5, 0x1f2edb1b, 0x3e5db636,
   0x7cbb6c6c, 0xf976d8d8, 0xf701c741, 0xebeff873,
   0xd2338617, 0xa18b7adf, 0x46fa834f, 0x8df5069e,
   0x1e067bcd, 0x3c0cf79a, 0x7819ef34, 0xf033de68,
   0xe58bca21, 0xcefbe2b3, 0x981bb397, 0x35db11df,
   0x6bb623be, 0xd76c477c, 0xab34f809, 0x538586e3]

/-- Basis-image table of `crcZStep^[786432]` on 32 bits. -/
def crcZAcc1 : List Nat :=
  [0x8a2f08de, 0x11b2674d, 0x2364ce9a, 0x46c99d34,
   0x8d933a68, 0x1eca0221, 0x3d940442, 0x7b280884,
   0xf6501108, 0xe94c54e1, 0xd774df33, 0xab05c897,
   0x53e7e7df, 0xa7cfcfbe, 0x4a73e98d, 0x94e7d31a,
   0x2c23d0c5, 0x5847a18a, 0xb08f4314, 0x64f2f0d9,
   0xc9e5e1b2, 0x9627b595, 0x29a31ddb, 0x53463bb6,
   0xa68c776c, 0x48f49829, 0x91e93052, 0x263e1655,
   0x4c7c2caa, 0x98f85954, 0x341cc459, 0x683988b2]

/-- Basis-image table of `crcZStep^[917504]` on 32 bits. -/
def crcZAcc2 : List Nat :=
  [0xa5530278, 0x4f4a7201, 0x9e94e402, 0x38c5bef5,
   0x718b7dea, 0xe316fbd4, 0xc3c18159, 0x826f7443,
   0x01329e77, 0x02653cee, 0x04ca79dc, 0x0994f3b8,
   0x1329e770, 0x2653cee0, 0x4ca79dc0, 0x994f3b80,
   0x377201f1, 0x6ee403e2, 0xddc807c4, 0xbe7c7979,
   0x79148403, 0xf2290806, 0xe1be66fd, 0xc690bb0b,
   0x88cd00e7, 0x1476773f, 0x28ecee7e, 0x51d9dcfc,
   0xa3b3b9f8, 0x428b0501, 0x85160a02, 0x0fc062f5]

/-- Basis-image table of `crcZStep^[983040]` on 32 bits. -/
def crcZAcc3 : List Nat :=
  [0x9a97be0c, 0x30c30ae9, 0x618615d2, 0xc30c2ba4,
   0x83f421b9, 0x02043583, 0x04086b06, 0x0810d60c,
   0x1021ac18, 0x20435830, 0x4086b060, 0x810d60c0,
   0x07f6b771, 0x0fed6ee2, 0x1fdaddc4, 0x3fb5bb88,
   0x7f6b7710, 0xfed6ee20, 0xf841aab1, 0xf56f2393,
   0xef3231d7, 0xdb88155f, 0xb2fc5c4f, 0x6014ce6f,
   0xc0299cde, 0x85bf4f4d, 0x0e92e86b, 0x1d25d0d6,
   0x3a4ba1ac, 0x74974358, 0xe92e86b0, 0xd7b17b91]

/-- Basis-image table of `crcZStep^[999424]` on 32 bits. -/
def crcZAcc4 : List Nat :=
  [0x5f641463, 0xbec828c6, 0x787c277d, 0xf0f84efa,
   0xe41ceb05, 0xcdd5a0fb, 0x9e473707, 0x396218ff,
   0x72c431fe, 0xe58863fc, 0xcefcb109, 0x981514e3,
   0x35c65f37, 0x6b8cbe6e, 0xd7197cdc, 0xabde8f49,
   0x52516863, 0xa4a2d0c6, 0x4ca9d77d, 0x9953aefa,
   0x374b2b05, 0x6e96560a, 0xdd2cac14, 0xbfb52ed9,
   0x7a862b43, 0xf50c5686, 0xeff4dbfd, 0xda05c10b,
   0xb1e7f4e7, 0x66239f3f, 0xcc473e7e, 0x9d620a0d]

/-- Basis-image table of `crcZStep^[999936]` on 32 bits. -/
def crcZAcc5 : List Nat :=
  [0x326cff17, 0x64d9fe2e, 0xc9b3fc5c, 0x968b8e49,
   0x28fb6a63, 0x51f6d4c6, 0xa3eda98c, 0x423725e9,
   0x846e4bd2, 0x0d30e155, 0x1a61c2aa, 0x34c38554,
   0x69870aa8, 0xd30e1550, 0xa3f05c51, 0x420cce53,
   0x84199ca6, 0x0ddf4fbd, 0x1bbe9f7a, 0x377d3ef4,
   0x6efa7de8, 0xddf4fbd0, 0xbe058151, 0x79e77453,
   0xf3cee8a6, 0xe271a7bd, 0xc10f398b, 0x87f205e7,
   0x0a087d3f, 0x1410fa7e, 0x2821f4fc, 0x5043e9f8]

/-- Basis-image table of `crcZStep^[1000000]` on 32 bits. -/
def crcZAcc6 : List Nat :=
  [0x27fd3000, 0x4ffa6000, 0x9ff4c000, 0x3a05f6f1,
   0x740bede2, 0xe817dbc4, 0xd5c3c179, 0xae6bf403,
   0x593b9ef7, 0xb2773dee, 0x61020d2d, 0xc2041a5a,
   0x81e44245, 0x0624f27b, 0x0c49e4f6, 0x1893c9ec,
   0x312793d8, 0x624f27b0, 0xc49e4f60, 0x8cd0e831,
   0x1c4da693, 0x389b4d26, 0x71369a4c, 0xe26d3498,
   0xc1361fc1, 0x87804973, 0x0aece417, 0x15d9c82e,
   0x2bb3905c, 0x576720b8, 0xaece4170, 0x5870f411]


/-- `T` is the basis-image table of `n` zero-byte steps on 32-bit
values. -/
def RepsZ (n : Nat) (T : List Nat) : Prop :=
  ∀ c, c < 2 ^ 32 → linApply T c = crcZStep^[n] c

theorem repsZ_comp {a b : Nat} {A B : List Nat}
    (hA : RepsZ a A) (hB : RepsZ b B) : RepsZ (a + b) (compT A B) := by
  intro c hc
  rw [linApply_compT, hB c hc, hA _ (crcZStep_iter_lt b hc),
    ← Function.iterate_add_apply]

theorem repsZ_1 : RepsZ 1 crcZT0 := by
  intro c hc
  have ht : tblOf crcZStep 32 = crcZT0 := by decide
  rw [← ht, linApply_tblOf 32 crcZStep crcZStep_zero crcZStep_xor c hc,
    Function.iterate_one]

theorem repsZ_2 : RepsZ 2 crcZT1 := by
  have h : compT crcZT0 crcZT0 = crcZT1 := by decide
  have h2 := repsZ_comp repsZ_1 repsZ_1
  rw [h] at h2
  exact h2

theorem repsZ_4 : RepsZ 4 crcZT2 := by
  have h : compT crcZT1 crcZT1 = crcZT2 := by decide
  have h2 := repsZ_comp repsZ_2 repsZ_2
  rw [h] at h2
  exact h2

theorem repsZ_8 : RepsZ 8 crcZT3 := by
  have h : compT crcZT2 crcZT2 = crcZT3 := by decide
  have h2 := repsZ_comp repsZ_4 repsZ_4
  rw [h] at h2
  exact h2

theorem repsZ_16 : RepsZ 16 crcZT4 := by
  have h : compT crcZT3 crcZT3 = crcZT4 := by decide
  have h2 := repsZ_comp repsZ_8 repsZ_8
  rw [h] at h2
  exact h2

theorem repsZ_32 : RepsZ 32 crcZT5 := by
  have h : compT crcZT4 crcZT4 = crcZT5 := by decide
  have h2 := repsZ_comp repsZ_16 repsZ_16
  rw [h] at h2
  exact h2

theorem repsZ_64 : RepsZ 64 crcZT6 := by
  have h : compT crcZT5 crcZT5 = crcZT6 := by decide
  have h2 := repsZ_comp repsZ_32 repsZ_32
  rw [h] at h2
  exact h2

theorem repsZ_128 : RepsZ 128 crcZT7 := by
  have h : compT crcZT6 crcZT6 = crcZT7 := by decide
  have h2 := repsZ_comp repsZ_64 repsZ_64
  rw [h] at h2
  exact h2

theorem repsZ_256 : RepsZ 256 crcZT8 := by
  have h : compT crcZT7 crcZT7 = crcZT8 := by decide
  have h2 := repsZ_comp repsZ_128 repsZ_128
  rw [h] at h2
  exact h2

theorem repsZ_512 : RepsZ 512 crcZT9 := by
  have h : compT crcZT8 crcZT8 = crcZT9 := by decide
  have h2 := repsZ_comp repsZ_256 repsZ_256
  rw [h] at h2
  exact h2

theorem repsZ_1024 : RepsZ 1024 crcZT10 := by
  have h : compT crcZT9 crcZT9 = crcZT10 := by decide
  have h2 := repsZ_comp repsZ_512 repsZ_512
  rw [h] at h2
  exact h2

theorem repsZ_2048 : RepsZ 2048 crcZT11 := by
  have h : compT crcZT10 crcZT10 = crcZT11 := by decide
  have h2 := repsZ_comp repsZ_1024 repsZ_1024
  rw [h] at h2
  exact h2

theorem repsZ_4096 : RepsZ 4096 crcZT12 := by
  have h : compT crcZT11 crcZT11 = crcZT12 := by decide
  have h2 := repsZ_comp repsZ_2048 repsZ_2048
  rw [h] at h2
  exact h2

theorem repsZ_8192 : RepsZ 8192 crcZT13 := by
  have h : compT crcZT12 crcZT12 = crcZT13 := by decide
  have h2 := repsZ_comp repsZ_4096 repsZ_4096
  rw [h] at h2
  exact h2

theorem repsZ_16384 : RepsZ 16384 crcZT14 := by
  have h : compT crcZT13 crcZT13 = crcZT14 := by decide
  have h2 := repsZ_comp repsZ_8192 repsZ_8192
  rw [h] at h2
  exact h2

theorem repsZ_32768 : RepsZ 32768 crcZT15 := by
  have h : compT crcZT14 crcZT14 = crcZT15 := by decide
  have h2 := repsZ_comp repsZ_16384 repsZ_16384
  rw [h] at h2
  exact h2

theorem repsZ_65536 : RepsZ 65536 crcZT16 := by
  have h : compT crcZT15 crcZT15 = crcZT16 := by decide
  have h2 := repsZ_comp repsZ_32768 repsZ_32768
  rw [h] at h2
  exact h2

theorem repsZ_131072 : RepsZ 131072 crcZT17 := by
  have h : compT crcZT16 crcZT16 = crcZT17 := by decide
  have h2 := repsZ_comp repsZ_65536 repsZ_65536
  rw [h] at h2
  exact h2

theorem repsZ_262144 : RepsZ 262144 crcZT18 := by
  have h : compT crcZT17 crcZT17 = crcZT18 := by decide
  have h2 := repsZ_comp repsZ_131072 repsZ_131072
  rw [h] at h2
  exact h2

theorem repsZ_524288 : RepsZ 524288 crcZT19 := by
  have h : compT crcZT18 crcZT18 = crcZT19 := by decide
  have h2 := repsZ_comp repsZ_262144 repsZ_262144
  rw [h] at h2
  exact h2

theorem repsZ_786432 : RepsZ 786432 crcZAcc1 := by
  have h : compT crcZT19 crcZT18 = crcZAcc1 := by decide
  have h2 := repsZ_comp repsZ_524288 repsZ_262144
  rw [h] at h2
  exact h2

theorem repsZ_917504 : RepsZ 917504 crcZAcc2 := by
  have h : compT crcZAcc1 crcZT17 = crcZAcc2 := by decide
  have h2 := repsZ_comp repsZ_786432 repsZ_131072
  rw [h] at h2
  exact h2

theorem repsZ_983040 : RepsZ 983040 crcZAcc3 := by
  have h : compT crcZAcc2 crcZT16 = crcZAcc3 := by decide
  have h2 := repsZ_comp repsZ_917504 repsZ_65536
  rw [h] at h2
  exact h2

theorem repsZ_999424 : RepsZ 999424 crcZAcc4 := by
  have h : compT crcZAcc3 crcZT14 = crcZAcc4 := by decide
  have h2 := repsZ_comp repsZ_983040 repsZ_16384
  rw [h] at h2
  exact h2

theorem repsZ_999936 : RepsZ 999936 crcZAcc5 := by
  have h : compT crcZAcc4 crcZT9 = crcZAcc5 := by decide
  have h2 := repsZ_comp repsZ_999424 repsZ_512
  rw [h] at h2
  exact h2

theorem repsZ_1000000 : RepsZ 1000000 crcZAcc6 := by
  have h : compT crcZAcc5 crcZT6 = crcZAcc6 := by decide
  have h2 := repsZ_comp repsZ_999936 repsZ_64
  rw [h] at h2
  exact h2

/-- A million zero-byte steps from the all-ones register. -/
theorem crcZ_iter_million : crcZStep^[1000000] 0xFFFFFFFF = 0x8e5065b1 := by
  have h := repsZ_1000000 0xFFFFFFFF (by norm_num)
  rw [← h]
  decide

/-- One more zero-byte step. -/
theorem crcZ_iter_million_succ :
    crcZStep^[1000001] 0xFFFFFFFF = 0x40f0a1af := by
  have he : (1000001 : Nat) = 1 + 1000000 := by norm_num
  rw [he, Function.iterate_add_apply, crcZ_iter_million]
  decide

theorem foldl_crcByte_replicate :
    ∀ (n s : Nat), List.foldl crcByte s (List.replicate n 0) = crcZStep^[n] s := by
  intro n
  induction n with
  | zero => intro s; rfl
  | succ n ih =>
    intro s
    rw [List.replicate_succ, List.foldl_cons,
      show crcByte s 0 = crcZStep s from rfl, ih (crcZStep s),
      ← Function.iterate_succ_apply]

/-- Closed form of the CRC-32C of a run of zero bytes. -/
theorem crc32c_replicate_zero (n : Nat) :
    crc32c (List.replicate n 0) 0 = crcZStep^[n] 0xFFFFFFFF ^^^ 0xFFFFFFFF := by
  unfold crc32c
  rw [Nat.zero_xor, foldl_crcByte_replicate]

/-- The CRC-32C of a million zero bytes differs from that of a million
and one: the pipeline truncation at the iteration cap is visible in the
digest. -/
theorem crc32c_million_zeros_ne :
    crc32c (List.replicate 1000000 0) 0 ≠ crc32c (List.replicate 1000001 0) 0 := by
  rw [crc32c_replicate_zero, crc32c_replicate_zero, crcZ_iter_million,
    crcZ_iter_million_succ]
  decide


/-! ## Chunking

`chunksOf n l` splits a byte list into consecutive pieces of `n` bytes
(final piece possibly shorter): the chunk sequence delivered by
`fs.createReadStream(file, { highWaterMark: chunkSize })` in the
worker-reader.  Written with explicit fuel so it evaluates by kernel
reduction; `l.length` fuel is always enough. -/

def chunksOfAux (n : Nat) : Nat → List Nat → List (List Nat)
  | 0, _ => []
  | fuel + 1, l =>
    if l = [] ∨ n = 0 then [] else l.take n :: chunksOfAux n fuel (l.drop n)

/-- Split `l` into chunks of `n` bytes, the last chunk possibly shorter. -/
def chunksOf (n : Nat) (l : List Nat) : List (List Nat) :=
  chunksOfAux n l.length l

theorem chunksOfAux_join (n : Nat) (hn : 0 < n) (fuel : Nat) :
    ∀ l : List Nat, l.length ≤ fuel → (chunksOfAux n fuel l).flatten = l := by
  induction fuel with
  | zero =>
    intro l h
    have : l = [] := List.eq_nil_of_length_eq_zero (Nat.le_zero.mp h)
    simp [chunksOfAux, this]
  | succ fuel ih =>
    intro l h
    by_cases h0 : l = []
    · simp [chunksOfAux, h0]
    · have hcond : ¬(l = [] ∨ n = 0) := by
        intro hc; rcases hc with hc | hc
        · exact h0 hc
        · omega
      simp only [chunksOfAux, hcond, if_false, List.flatten]
      have hdrop : (l.drop n).length ≤ fuel := by
        rw [List.length_drop]
        have : 0 < l.length := List.length_pos.mpr h0
        omega
      rw [ih (l.drop n) hdrop, List.take_append_drop]

/-- For positive chunk size the chunks concatenate back to the input. -/
theorem chunksOf_join (n : Nat) (l : List Nat) (hn : 0 < n) :
    (chunksOf n l).flatten = l :=
  chunksOfAux_join n hn l.length l (le_refl _)

theorem chunksOfAux_one : ∀ (fuel : Nat) (l : List Nat), l.length ≤ fuel →
    chunksOfAux 1 fuel l = l.map (fun b => [b]) := by
  intro fuel
  induction fuel with
  | zero =>
    intro l h
    have hl : l = [] := List.eq_nil_of_length_eq_zero (by omega)
    subst hl
    rfl
  | succ fuel ih =>
    intro l h
    cases l with
    | nil => rfl
    | cons a l =>
      have hcond : ¬(a :: l = [] ∨ (1 : Nat) = 0) := by simp
      have heq : chunksOfAux 1 (fuel + 1) (a :: l) =
          (a :: l).take 1 :: chunksOfAux 1 fuel ((a :: l).drop 1) := by
        conv_lhs => unfold chunksOfAux
        rw [if_neg hcond]
      rw [heq, show (a :: l).take 1 = [a] from rfl, show (a :: l).drop 1 = l from rfl,
        ih l (by simpa using h), List.map_cons]

/-- At chunk size one, chunking is just boxing each byte. -/
theorem chunksOf_one (l : List Nat) : chunksOf 1 l = l.map (fun b => [b]) :=
  chunksOfAux_one l.length l (le_refl _)

theorem flatten_map_singleton : ∀ l : List Nat, (l.map (fun b => [b])).flatten = l := by
  intro l
  induction l with
  | nil => rfl
  | cons a l ih => simp [ih]

/-! ## SHA-256

Model of Node's `crypto.createHash('sha256')` digest function (FIPS
180-4), used by the worker-hasher's `sha256` branch.  All word arithmetic
is `Nat` reduced `% 2 ^ 32`. -/

/-- Word-size modulus. -/
def m32 : Nat := 4294967296

/-- Addition modulo `2 ^ 32`. -/
def add32 (a b : Nat) : Nat := (a + b) % m32

/-- Right rotation of a 32-bit word by `r` (for `x < 2 ^ 32`). -/
def rotr32 (r x : Nat) : Nat := x % 2 ^ r * 2 ^ (32 - r) + x / 2 ^ r

/-- Logical right shift. -/
def shr32 (r x : Nat) : Nat := x / 2 ^ r

/-- Bitwise complement on 32 bits. -/
def not32 (x : Nat) : Nat := x ^^^ 0xFFFFFFFF

def ch32 (x y z : Nat) : Nat := (x &&& y) ^^^ (not32 x &&& z)

def maj32 (x y z : Nat) : Nat := (x &&& y) ^^^ (x &&& z) ^^^ (y &&& z)

def bsig0 (x : Nat) : Nat := rotr32 2 x ^^^ rotr32 13 x ^^^ rotr32 22 x

def bsig1 (x : Nat) : Nat := rotr32 6 x ^^^ rotr32 11 x ^^^ rotr32 25 x

def ssig0 (x : Nat) : Nat := rotr32 7 x ^^^ rotr32 18 x ^^^ shr32 3 x

def ssig1 (x : Nat) : Nat := rotr32 17 x ^^^ rotr32 19 x ^^^ shr32 10 x

/-- The first 64 primes, from which FIPS 180-4 derives its constants. -/
def first64Primes : List Nat :=
  [2, 3, 5, 7, 11, 13, 17, 19, 23, 29, 31, 37, 41, 43, 47, 53,
   59, 61, 67, 71, 73, 79, 83, 89, 97, 101, 103, 107, 109, 113, 127, 131,
   137, 139, 149, 151, 157, 163, 167, 173, 179, 181, 191, 193, 197, 199, 211, 223,
   227, 229, 233, 239, 241, 251, 257, 263, 269, 271, 277, 281, 283, 293, 307, 311]

/-- Integer cube root by bisection (largest `x` with `x ^ 3 ≤ n`),
maintaining `lo ^ 3 ≤ n < hi ^ 3`. -/
def icbrtGo (n : Nat) : Nat → Nat → Nat → Nat
  | 0, lo, _ => lo
  | f + 1, lo, hi =>
    if hi ≤ lo + 1 then lo
    else if ((lo + hi) / 2) ^ 3 ≤ n then icbrtGo n f ((lo + hi) / 2) hi
    else icbrtGo n f lo ((lo + hi) / 2)

/-- Integer cube root, adequate for inputs below `2 ^ 120`. -/
def icbrt (n : Nat) : Nat := icbrtGo n 64 0 (2 ^ 40)

/-- The 64 SHA-256 round constants: the first 32 bits of the fractional
parts of the cube roots of the first 64 primes. -/
def sha256K : List Nat :=
  first64Primes.map fun p => icbrt (p * 2 ^ 96) % 2 ^ 32

/-- Eight-byte big-endian encoding of a length in bits. -/
def lenBytes64 (n : Nat) : List Nat :=
  [n / 2 ^ 56 % 256, n / 2 ^ 48 % 256, n / 2 ^ 40 % 256, n / 2 ^ 32 % 256,
   n / 2 ^ 24 % 256, n / 2 ^ 16 % 256, n / 2 ^ 8 % 256, n % 256]

/-- SHA-256 padding: `0x80`, zeros to 56 mod 64, then the 64-bit
big-endian bit length. -/
def padMsg (msg : List Nat) : List Nat :=
  msg ++ [0x80] ++ List.replicate ((119 - msg.length % 64) % 64) 0 ++
    lenBytes64 (msg.length * 8)

/-- Big-endian word from a list of bytes. -/
def beWord (bs : List Nat) : Nat := bs.foldl (fun a b => a * 256 + b % 256) 0

/-- Extend a 16-word schedule by `k` further words. -/
def extendSchedule : Nat → List Nat → List Nat
  | 0, ws => ws
  | k + 1, ws =>
    let t := ws.length
    let w := add32 (add32 (ssig1 (ws.getD (t - 2) 0)) (ws.getD (t - 7) 0))
      (add32 (ssig0 (ws.getD (t - 15) 0)) (ws.getD (t - 16) 0))
    extendSchedule k (ws ++ [w])

/-- The eight SHA-256 working variables. -/
structure Sha256St where
  a : Nat
  b : Nat
  c : Nat
  d : Nat
  e : Nat
  f : Nat
  g : Nat
  h : Nat
deriving Repr, DecidableEq

/-- The `i`-th initial hash word: the first 32 bits of the fractional
part of the square root of the `i`-th prime. -/
def sha256HInit (i : Nat) : Nat :=
  Nat.sqrt (first64Primes.getD i 0 * 2 ^ 64) % 2 ^ 32

/-- Initial hash value. -/
def sha256H0 : Sha256St :=
  ⟨sha256HInit 0, sha256HInit 1, sha256HInit 2, sha256HInit 3,
   sha256HInit 4, sha256HInit 5, sha256HInit 6, sha256HInit 7⟩

/-- One round of the SHA-256 compression function. -/
def sha256Round (ws : List Nat) (s : Sha256St) (t : Nat) : Sha256St :=
  let T1 := add32 s.h (add32 (bsig1 s.e)
    (add32 (ch32 s.e s.f s.g) (add32 (sha256K.getD t 0) (ws.getD t 0))))
  let T2 := add32 (bsig0 s.a) (maj32 s.a s.b s.c)
  ⟨add32 T1 T2, s.a, s.b, s.c, add32 s.d T1, s.e, s.f, s.g⟩

/-- Compress one 64-byte block into the running hash value. -/
def sha256Block (s : Sha256St) (block : List Nat) : Sha256St :=
  let ws := extendSchedule 48 ((chunksOf 4 block).map beWord)
  let t := (List.range 64).foldl (sha256Round ws) s
  ⟨add32 s.a t.a, add32 s.b t.b, add32 s.c t.c, add32 s.d t.d,
   add32 s.e t.e, add32 s.f t.f, add32 s.g t.g, add32 s.h t.h⟩

/-- SHA-256 of a byte list, as the eight-word final hash value. -/
def sha256Words (msg : List Nat) : Sha256St :=
  (chunksOf 64 (padMsg msg)).foldl sha256Block sha256H0

/-- `hash.digest('hex')`: the SHA-256 digest rendered as 64 lowercase
hexadecimal characters (eight fixed-width words). -/
def sha256Hex (msg : List Nat) : String :=
  let s := sha256Words msg
  ⟨(hexFixedDigits 8 s.a ++ hexFixedDigits 8 s.b ++ hexFixedDigits 8 s.c ++
    hexFixedDigits 8 s.d ++ hexFixedDigits 8 s.e ++ hexFixedDigits 8 s.f ++
    hexFixedDigits 8 s.g ++ hexFixedDigits 8 s.h).map hexDigitChar⟩

theorem hexFixedDigits_length (k : Nat) : ∀ n, (hexFixedDigits k n).length = k := by
  induction k with
  | zero => intro n; rfl
  | succ k ih =>
    intro n
    simp only [hexFixedDigits, List.length_append, List.length_singleton, ih]

theorem hexFixedDigits_lt (k : Nat) : ∀ n, ∀ d ∈ hexFixedDigits k n, d < 16 := by
  induction k with
  | zero => intro n d h; simp [hexFixedDigits] at h
  | succ k ih =>
    intro n d h
    simp only [hexFixedDigits, List.mem_append, List.mem_singleton] at h
    rcases h with h | h
    · exact ih (n / 16) d h
    · subst h; exact Nat.mod_lt _ (by omega)

/-- The sha256 digest string is always exactly 64 characters. -/
theorem sha256Hex_length (msg : List Nat) : (sha256Hex msg).length = 64 := by
  simp only [sha256Hex, String.length, List.length_map, List.length_append,
    hexFixedDigits_length]

/-- The sha256 digest string is lowercase hexadecimal. -/
theorem strIsLowerHex_sha256Hex (msg : List Nat) :
    strIsLowerHex (sha256Hex msg) = true := by
  simp only [strIsLowerHex, sha256Hex, String.toList, List.all_eq_true]
  intro c hc
  rcases List.mem_map.mp hc with ⟨d, hd, rfl⟩
  simp only [List.mem_append] at hd
  have hlt : d < 16 := by
    rcases hd with ((((((h | h) | h) | h) | h) | h) | h) | h <;>
      exact hexFixedDigits_lt 8 _ d h
  simp only [isLowerHexChar, hexCharVal_hexDigitChar d hlt]
  exact decide_eq_true hlt

/-! ## The xxHash digest functions

The worker-hasher's `xxh64` and `xxh3-64` branches drive hasher objects
from the external native `@node-rs/xxhash` module (`new Xxh64()` and
`xxh3.Xxh3.withSeed()`): `update` accumulates bytes in order and
`digest()` returns an unsigned 64-bit `BigInt`.  That module's code is not
part of this repository, so only its interface contract is modelled. -/

/-- Modelled from the spec: the external `@node-rs/xxhash` `Xxh64`
digest function is missing from the sources; the spec constrains it only
to be a pure, order-sensitive function of the accumulated bytes producing
an unsigned 64-bit value ("two 64-bit variants ... each producing a
digest representable as a fixed-width integer").  This executable
stand-in is such a function; no claim depends on its concrete values. -/
def xxh64Fn (data : List Nat) : Nat :=
  data.foldl (fun a b => (a * 1099511628211 + b % 256) % 2 ^ 64) 14695981039346656037

/-- Modelled from the spec: the external `@node-rs/xxhash` `Xxh3`
(seeded, default seed) digest function is missing from the sources; as
for `xxh64Fn`, the spec fixes only that it is a pure, order-sensitive
function of the accumulated bytes yielding an unsigned 64-bit value.
No claim depends on its concrete values. -/
def xxh3Fn (data : List Nat) : Nat :=
  data.foldl (fun a b => (a * 6364136223846793005 + b % 256 + 1) % 2 ^ 64) 0

/-! ## The hash adapter (worker-hasher algorithm dispatch)

The worker-hasher selects `hashFn` / `finalDigest` by an `if`/`else`
chain on the `algo` string; an unrecognized name throws
`Unknown algorithm: ...` before the control word is touched and before
the wait loop.  The per-algorithm mutable state is:
- `sha256`: a `crypto.createHash('sha256')` object — modelled by the
  bytes accumulated by its `update` calls;
- `crc32c`: the running `crc` number, initially `0`;
- `xxh64` / `xxh3-64`: an xxhash hasher object — modelled by the bytes
  accumulated by its `update` calls. -/

/-- The supported algorithm set. -/
inductive Algo
  | sha256
  | crc32c
  | xxh64
  | xxh3_64
deriving Repr, DecidableEq

/-- Consumer-local hash accumulation state, one constructor per branch of
the worker-hasher's dispatch. -/
inductive HState
  | sha (acc : List Nat)
  | crc (c : Nat)
  | x64 (acc : List Nat)
  | x3 (acc : List Nat)
deriving Repr, DecidableEq

/-- The algorithm-name dispatch of the worker-hasher's `if`/`else`
chain; `none` corresponds to the `Unknown algorithm` throw. -/
def parseAlgo (s : String) : Option Algo :=
  if s = "sha256" then some Algo.sha256
  else if s = "crc32c" then some Algo.crc32c
  else if s = "xxh64" then some Algo.xxh64
  else if s = "xxh3-64" then some Algo.xxh3_64
  else none

/-- Fresh adapter state per algorithm (`createHash('sha256')`,
`let crc = 0`, `new Xxh64()`, `xxh3.Xxh3.withSeed()`). -/
def initState : Algo → HState
  | Algo.sha256 => HState.sha []
  | Algo.crc32c => HState.crc 0
  | Algo.xxh64 => HState.x64 []
  | Algo.xxh3_64 => HState.x3 []

/-- Worker-hasher startup: algorithm dispatch, failing fast with the
`Unknown algorithm` throw on an unrecognized name. -/
def hasherInit (s : String) : Except String HState :=
  match parseAlgo s with
  | some a => Except.ok (initState a)
  | none => Except.error ("Unknown algorithm: " ++ s)

/-- The worker-hasher's `hashFn(chunk)`: one `update` call on the
adapter.  `sha256` / `xxh64` / `xxh3-64` accumulate the bytes in their
hasher object; `crc32c` runs `crc = crc32c(chunk, crc)`. -/
def hashUpd : HState → List Nat → HState
  | HState.sha acc, chunk => HState.sha (acc ++ chunk)
  | HState.crc c, chunk => HState.crc (crc32c chunk c)
  | HState.x64 acc, chunk => HState.x64 (acc ++ chunk)
  | HState.x3 acc, chunk => HState.x3 (acc ++ chunk)

/-- The worker-hasher's `finalDigest()`: `hash.digest('hex')` for
`sha256`; `crc.toString(16)` for `crc32c`; `digest().toString(16)` on
the `BigInt` result for `xxh64` / `xxh3-64`. -/
def finalDigest : HState → String
  | HState.sha acc => sha256Hex acc
  | HState.crc c => hexStr c
  | HState.x64 acc => hexStr (xxh64Fn acc)
  | HState.x3 acc => hexStr (xxh3Fn acc)

/-- Feeding no bytes leaves the adapter state unchanged. -/
theorem hashUpd_nil (st : HState) : hashUpd st [] = st := by
  cases st <;> simp [hashUpd, crc32c_nil]

/-- `update` accumulates: feeding `a` then `b` equals feeding `a ++ b`. -/
theorem hashUpd_append (st : HState) (a b : List Nat) :
    hashUpd (hashUpd st a) b = hashUpd st (a ++ b) := by
  cases st <;> simp [hashUpd, crc32c_append]

/-! ## The pipeline hand-off

The shared control word is `flagView = [status, length]` with status
`0 = READY`, `1 = DATA_AVAILABLE`, `2 = EOF`.  On the successful path the
hand-off alternates strictly: the reader observes READY, overwrites the
front of the shared buffer with the chunk (`dataView.set(chunk)`),
stores the length and status `1`; the hasher observes status `1`, feeds
`dataView.subarray(0, len)` to `hashFn` when `len > 0`, and stores
status `0` back; at end of stream the reader stores status `2` and the
hasher finalizes.  `runChunks` is that alternation, together with the
observable control-word transitions. -/

/-- Observable pipeline events: `publish n` is the reader's
READY→DATA_AVAILABLE transition with length `n`; `updCall n` is a
consumer `hashFn` invocation on `n` bytes; `consumeRet` is the consumer's
DATA_AVAILABLE→READY transition; `eofSig` is the →EOF transition. -/
inductive Ev
  | publish (n : Nat)
  | updCall (n : Nat)
  | consumeRet
  | eofSig
deriving Repr, DecidableEq

/-- `dataView.set(chunk)`: overwrite the front of the shared buffer,
leaving any stale bytes beyond the chunk in place. -/
def writeChunk (buf chunk : List Nat) : List Nat :=
  chunk ++ buf.drop chunk.length

/-- The strict alternation of one pipeline run over the list of chunks
actually delivered (the caller enforces the workers' `MAX_ITERATIONS`
cap by truncating the chunk list): the final adapter state and the event
trace.  Each cycle publishes a chunk into the (reused,
stale-bytes-retaining) buffer, lets the consumer feed `buf.take len` to
the adapter when `len > 0` (the length-zero guard skips the call), and
returns the buffer to READY; after the last delivered chunk the reader
signals EOF. -/
def runChunks (st : HState) (buf : List Nat) : List (List Nat) → HState × List Ev
  | [] => (st, [Ev.eofSig])
  | c :: cs =>
    let buf1 := writeChunk buf c
    let st1 := if 0 < c.length then hashUpd st (buf1.take c.length) else st
    let evs1 := if 0 < c.length
      then [Ev.publish c.length, Ev.updCall c.length, Ev.consumeRet]
      else [Ev.publish c.length, Ev.consumeRet]
    let r := runChunks st1 buf1 cs
    (r.1, evs1 ++ r.2)

/-- Both workers guard their loops with the same iteration ceiling
(`const MAX_ITERATIONS = 1000000`): the reader breaks out of its chunk
loop once `iterations` exceeds it (further chunks are never published,
and the EOF signal path still runs), and the hasher's outer loop runs
`while (iterations < MAX_ITERATIONS)`, so it too consumes at most this
many chunks before finalizing. -/
def MAX_ITERATIONS : Nat := 1000000

/-- One full pipeline run: the reader chunks the input at the configured
chunk size and the buffer starts as the zero-filled `SharedArrayBuffer`
of that capacity.  Both workers cap their loops at `MAX_ITERATIONS`, so
only the first `MAX_ITERATIONS` chunks are published and consumed; the
EOF store still follows. -/
def pipelineRun (algo : Algo) (input : List Nat) (chunkSize : Nat) :
    HState × List Ev :=
  runChunks (initState algo) (List.replicate chunkSize 0)
    ((chunksOf chunkSize input).take MAX_ITERATIONS)

/-- The digest the pipeline reports at EOF. -/
def pipelineDigest (algo : Algo) (input : List Nat) (chunkSize : Nat) : String :=
  finalDigest (pipelineRun algo input chunkSize).1

/-- The digest from feeding the whole input in a single `update` call. -/
def oneShotDigest (algo : Algo) (input : List Nat) : String :=
  finalDigest (hashUpd (initState algo) input)

/-- READY→DATA_AVAILABLE transitions in a trace. -/
def publishCount (evs : List Ev) : Nat :=
  (evs.filter fun e => match e with | Ev.publish _ => true | _ => false).length

/-- Adapter `update` invocations in a trace. -/
def updCallCount (evs : List Ev) : Nat :=
  (evs.filter fun e => match e with | Ev.updCall _ => true | _ => false).length

/-- Transitions to EOF in a trace. -/
def eofCount (evs : List Ev) : Nat :=
  (evs.filter fun e => match e with | Ev.eofSig => true | _ => false).length

/-- The consumer reads back exactly the chunk just written: taking
`chunk.length` bytes from the overwritten buffer recovers the chunk,
stale bytes notwithstanding. -/
theorem writeChunk_take (buf chunk : List Nat) :
    (writeChunk buf chunk).take chunk.length = chunk := by
  simp [writeChunk, List.take_left]

/-- The adapter state after a run over any chunk list is the state fed
the concatenation of the chunks in one call. -/
theorem runChunks_state (cs : List (List Nat)) :
    ∀ (st : HState) (buf : List Nat),
      (runChunks st buf cs).1 = hashUpd st cs.flatten := by
  induction cs with
  | nil => intro st buf; simp [runChunks, hashUpd_nil]
  | cons c cs ih =>
    intro st buf
    simp only [runChunks, writeChunk_take, List.flatten_cons]
    by_cases hc : 0 < c.length
    · simp only [hc, if_true, ih, hashUpd_append]
    · have : c = [] := List.eq_nil_of_length_eq_zero (by omega)
      subst this
      simp [ih, hashUpd_nil]

/-! ## The producer agent (worker-reader)

Atomic actions of the reader on the shared state, and its two
wait-with-timeout loops, modelled as functions of the status values the
`Atomics.load` calls observe and of which `Atomics.wait` calls time out.
`obs k` is the status the loop-condition load sees when the local
`waitCount` is `k`; `tO k` tells whether the `k`-th wait (the one that
raised `waitCount` to `k`) returned `'timed-out'`; `chk k` is the status
the post-timeout re-load sees. -/

/-- Atomic actions the reader performs on the shared buffer and control
word. -/
inductive Act
  | writeBuf (chunk : List Nat)
  | storeLen (n : Nat)
  | storeSt (s : Nat)
  | wake
deriving Repr, DecidableEq

/-- Producer-side failures: the three `throw` sources in the reader
(`Hasher signaled EOF prematurely`, the 1000-slice wait timeout, and a
stream read error surfacing in the `for await`). -/
inductive PErr
  | prematureEof
  | producerTimeout
  | sourceRead
deriving Repr, DecidableEq

/-- The reader's per-chunk publish sequence: copy into the shared
buffer, store the length, store status `1`, notify. -/
def pubActs (chunk : List Nat) : List Act :=
  [Act.writeBuf chunk, Act.storeLen chunk.length, Act.storeSt 1, Act.wake]

/-- The reader's pre-publish wait loop
(`while (load ≠ 0 && waitCount < 1000)` with a 100 ms `Atomics.wait`
per iteration and a premature-EOF check after each timeout), returning
the final `waitCount` and the error thrown, if any.  Fuel `1001`
always suffices since `waitCount` grows every iteration. -/
def pubWaitGo (obs chk : Nat → Nat) (tO : Nat → Bool) :
    Nat → Nat → Nat × Option PErr
  | 0, wc => (wc, none)
  | fuel + 1, wc =>
    if obs wc ≠ 0 ∧ wc < 1000 then
      if tO (wc + 1) = true ∧ chk (wc + 1) = 2 then (wc + 1, some PErr.prematureEof)
      else pubWaitGo obs chk tO fuel (wc + 1)
    else (wc, none)

/-- The pre-publish wait including the post-loop
`if (waitCount >= 1000) throw` producing the reader-timeout error. -/
def pubWaitRes (obs chk : Nat → Nat) (tO : Nat → Bool) : Nat × Option PErr :=
  let r := pubWaitGo obs chk tO 1001 0
  match r.2 with
  | some e => (r.1, some e)
  | none => if r.1 ≥ 1000 then (r.1, some PErr.producerTimeout) else r

/-- The reader's pre-EOF wait loop: same condition, but a timed-out wait
with `waitCount > 10` breaks out ("forcing EOF signal").  Returns the
final `waitCount` and whether the loop exited through that forced
break. -/
def eofWaitGo (obs : Nat → Nat) (tO : Nat → Bool) :
    Nat → Nat → Nat × Bool
  | 0, wc => (wc, false)
  | fuel + 1, wc =>
    if obs wc ≠ 0 ∧ wc < 1000 then
      if tO (wc + 1) = true ∧ wc + 1 > 10 then (wc + 1, true)
      else eofWaitGo obs tO fuel (wc + 1)
    else (wc, false)

/-- The pre-EOF wait loop from `waitCount = 0` with sufficient fuel. -/
def eofWait (obs : Nat → Nat) (tO : Nat → Bool) : Nat × Bool :=
  eofWaitGo obs tO 1001 0

/-- The control-word status the reader last observed when it proceeds to
store EOF after the pre-EOF wait loop. -/
def eofWaitExitStatus (obs : Nat → Nat) (tO : Nat → Bool) : Nat :=
  obs (eofWait obs tO).1

/-- How one reader execution ended: the stream completed (possibly via
the defensive `MAX_ITERATIONS` break), or a failure was thrown after
some chunks were already published.  In every case the reader's final
acts are the EOF store and a notify — on success after the pre-EOF wait,
on failure from the `catch` block. -/
inductive PRes
  | success (chunks : List (List Nat))
  | capHit (chunks : List (List Nat))
  | failure (e : PErr) (published : List (List Nat))
deriving Repr, DecidableEq

/-- The complete action trace of one reader execution on the shared
state: the publish sequences of the delivered chunks, then
`status = 2` (EOF) and a notify — reached through the pre-EOF wait on
the normal path and through the `catch` block on the failure path. -/
def producerTrace : PRes → List Act
  | PRes.success cs => cs.flatMap pubActs ++ [Act.storeSt 2, Act.wake]
  | PRes.capHit cs => cs.flatMap pubActs ++ [Act.storeSt 2, Act.wake]
  | PRes.failure _ cs => cs.flatMap pubActs ++ [Act.storeSt 2, Act.wake]

/-- The reader worker always ends in `process.exit(0)`, whatever the
path. -/
def producerExitCode : PRes → Nat := fun _ => 0

/-- The orchestrator's `readerExitPromise` handler: it rejects exactly
when the reader's exit code is nonzero. -/
def readerExitRejects (code : Nat) : Bool := code != 0

/-- The last status value stored in a trace, if any. -/
def finalStatus (tr : List Act) : Option Nat :=
  tr.foldl (fun acc a => match a with | Act.storeSt s => some s | _ => acc) none

/-- Whether an action writes the shared data buffer. -/
def isBufWrite : Act → Bool
  | Act.writeBuf _ => true
  | _ => false

/-- The actions strictly after the first EOF store in a trace. -/
def actsAfterEof (tr : List Act) : List Act :=
  (tr.dropWhile fun a => decide (a ≠ Act.storeSt 2)).drop 1

/-! ## The consumer agent (worker-hasher) -/

/-- The worker-hasher's DATA_AVAILABLE handler: read
`len = Atomics.load(flagView, 1)`, feed `dataView.subarray(0, len)` to
`hashFn` when `len > 0` (the guard skips the call entirely otherwise),
then store status `0` (READY) and notify.  Returns the new adapter
state, the stored status, the notify flag, and the number of `hashFn`
calls made. -/
def consumeStep (st : HState) (buf : List Nat) (len : Nat) :
    HState × Nat × Bool × Nat :=
  if 0 < len then (hashUpd st (buf.take len), 0, true, 1)
  else (st, 0, true, 0)

/-- Outcome of the worker-hasher's inner wait loop after a bounded
number of wait slices. -/
inductive WaitOutcome
  | waiting
  | proceed
  | exitFail
deriving Repr, DecidableEq

/-- The worker-hasher's inner wait loop
(`while (load == 0) { wait(…, 1000); if timed-out { if chk == 2 break;
if (iterations > 100) process.exit(1) } }`), observed for `fuel` wait
slices starting at observation index `k`.  `its` is the value of the
outer loop counter `iterations`, which the timeout guard compares with
`100`; `WaitOutcome.waiting` means the loop is still running after the
`fuel` slices. -/
def hasherWaitGo (obs chk : Nat → Nat) (tO : Nat → Bool) (its : Nat) :
    Nat → Nat → WaitOutcome
  | 0, _ => WaitOutcome.waiting
  | fuel + 1, k =>
    if obs k = 0 then
      if tO k = true then
        if chk k = 2 then WaitOutcome.proceed
        else if its > 100 then WaitOutcome.exitFail
        else hasherWaitGo obs chk tO its fuel (k + 1)
      else hasherWaitGo obs chk tO its fuel (k + 1)
    else WaitOutcome.proceed

/-- The worker-hasher's startup actions on the shared state: on a
recognized algorithm it stores status `0` and notifies before entering
its loop; an unrecognized name throws first, so nothing is performed. -/
def hasherStartActs (s : String) : List Act :=
  match hasherInit s with
  | Except.ok _ => [Act.storeSt 0, Act.wake]
  | Except.error _ => []

/-! ## Trace lemmas -/

theorem storeSt_two_not_mem_pubActs (cs : List (List Nat)) :
    Act.storeSt 2 ∉ cs.flatMap pubActs := by
  intro h
  rcases List.mem_flatMap.mp h with ⟨c, _, hmem⟩
  simp [pubActs] at hmem

theorem finalStatus_producerTrace (cs : List (List Nat)) :
    finalStatus (cs.flatMap pubActs ++ [Act.storeSt 2, Act.wake]) = some 2 := by
  simp [finalStatus, List.foldl_append]

theorem getLast_producerTrace (cs : List (List Nat)) :
    (cs.flatMap pubActs ++ [Act.storeSt 2, Act.wake]).getLast? = some Act.wake := by
  rw [List.getLast?_append]
  rfl

theorem dropWhile_append_of_all {p : Act → Bool} (l r : List Act)
    (h : ∀ a ∈ l, p a = true) : (l ++ r).dropWhile p = r.dropWhile p := by
  induction l with
  | nil => rfl
  | cons a l ih =>
    simp only [List.cons_append, List.dropWhile_cons, h a (List.mem_cons_self a l),
      if_true]
    exact ih fun x hx => h x (List.mem_cons_of_mem a hx)

theorem actsAfterEof_producerTrace (cs : List (List Nat)) :
    actsAfterEof (cs.flatMap pubActs ++ [Act.storeSt 2, Act.wake]) = [Act.wake] := by
  unfold actsAfterEof
  rw [dropWhile_append_of_all]
  · rfl
  · intro a ha
    have : a ≠ Act.storeSt 2 := by
      intro hh; subst hh; exact storeSt_two_not_mem_pubActs cs ha
    exact decide_eq_true this

/-- After the EOF store the reader performs no further buffer writes, on
every execution path. -/
theorem no_buf_write_after_eof (res : PRes) :
    (actsAfterEof (producerTrace res)).all (fun a => !isBufWrite a) = true := by
  cases res <;>
    simp [producerTrace, actsAfterEof_producerTrace, isBufWrite]

/-! ## Wait-loop lemmas -/

/-- Against a consumer that keeps the status at DATA_AVAILABLE forever,
the pre-publish wait loop runs its `waitCount` exactly to the `1000`
bound and exits without throwing inside the loop. -/
theorem pubWaitGo_stalled (obs chk : Nat → Nat) (tO : Nat → Bool)
    (h1 : ∀ k, obs k = 1) (h2 : ∀ k, chk k = 1) :
    ∀ fuel wc, wc ≤ 1000 → 1000 ≤ wc + fuel →
      pubWaitGo obs chk tO fuel wc = (1000, none) := by
  intro fuel
  induction fuel with
  | zero =>
    intro wc hle hge
    have : wc = 1000 := by omega
    subst this
    rfl
  | succ fuel ih =>
    intro wc hle hge
    by_cases hwc : wc < 1000
    · have hcond : obs wc ≠ 0 ∧ wc < 1000 := by
        constructor
        · rw [h1 wc]; omega
        · exact hwc
      have hchk : ¬(tO (wc + 1) = true ∧ chk (wc + 1) = 2) := by
        intro hc
        rw [h2 (wc + 1)] at hc
        omega
      have heq : pubWaitGo obs chk tO (fuel + 1) wc = pubWaitGo obs chk tO fuel (wc + 1) := by
        conv_lhs => unfold pubWaitGo
        rw [if_pos hcond, if_neg hchk]
      rw [heq]
      exact ih (wc + 1) (by omega) (by omega)
    · have hwc1000 : wc = 1000 := by omega
      subst hwc1000
      have hcond : ¬(obs 1000 ≠ 0 ∧ 1000 < 1000) := by omega
      conv_lhs => unfold pubWaitGo
      rw [if_neg hcond]

/-- Exit characterization of the pre-EOF wait loop: an exit without the
forced break means the reader either observed READY or hit the
`waitCount < 1000` cap; an exit through the break happened on a
timed-out wait with `waitCount > 10`. -/
theorem eofWaitGo_exit (obs : Nat → Nat) (tO : Nat → Bool) :
    ∀ fuel wc, 1001 ≤ wc + fuel → wc ≤ 1000 →
      ((eofWaitGo obs tO fuel wc).2 = false →
        obs (eofWaitGo obs tO fuel wc).1 = 0 ∨ (eofWaitGo obs tO fuel wc).1 = 1000) ∧
      ((eofWaitGo obs tO fuel wc).2 = true →
        10 < (eofWaitGo obs tO fuel wc).1 ∧ tO (eofWaitGo obs tO fuel wc).1 = true) := by
  intro fuel
  induction fuel with
  | zero =>
    intro wc hge hle
    omega
  | succ fuel ih =>
    intro wc hge hle
    by_cases hcond : obs wc ≠ 0 ∧ wc < 1000
    · by_cases hbrk : tO (wc + 1) = true ∧ wc + 1 > 10
      · have heq : eofWaitGo obs tO (fuel + 1) wc = (wc + 1, true) := by
          conv_lhs => unfold eofWaitGo
          rw [if_pos hcond, if_pos hbrk]
        rw [heq]
        constructor
        · intro h; simp at h
        · intro _; exact ⟨hbrk.2, hbrk.1⟩
      · have heq : eofWaitGo obs tO (fuel + 1) wc = eofWaitGo obs tO fuel (wc + 1) := by
          conv_lhs => unfold eofWaitGo
          rw [if_pos hcond, if_neg hbrk]
        rw [heq]
        exact ih (wc + 1) (by omega) (by omega)
    · have heq : eofWaitGo obs tO (fuel + 1) wc = (wc, false) := by
        conv_lhs => unfold eofWaitGo
        rw [if_neg hcond]
      rw [heq]
      constructor
      · intro _
        rcases Decidable.not_and_iff_or_not.mp hcond with h | h
        · left; simpa using h
        · right; omega
      · intro h; simp at h

/-- With no data and no EOF ever arriving (status constantly READY) and
the outer `iterations` counter at its first-chunk value `1`, the
worker-hasher's inner wait loop is still running after every number of
wait slices: its `iterations > 100` timeout guard can never fire. -/
theorem hasherWaitGo_never_exits :
    ∀ fuel k, hasherWaitGo (fun _ => 0) (fun _ => 0) (fun _ => true) 1 fuel k =
      WaitOutcome.waiting := by
  intro fuel
  induction fuel with
  | zero => intro k; rfl
  | succ fuel ih =>
    intro k
    simp only [hasherWaitGo, if_true]
    exact ih (k + 1)

/-! ## Claim theorems -/

/-- C1 counterexample: the claim that the pipeline digest equals the
one-shot digest for every input and every positive chunk size is false.
Both workers cap their loops at `MAX_ITERATIONS = 1000000`, so at chunk
size 1 a 1,000,001-byte input (a million and one zero bytes) is
truncated: only the first million bytes are hashed, and the crc32c
digest of the pipeline differs from the one-shot digest of the full
input. -/
theorem c1_counterexample :
    0 < 1 ∧ pipelineDigest Algo.crc32c (List.replicate 1000001 0) 1 ≠
      oneShotDigest Algo.crc32c (List.replicate 1000001 0) := by
  refine ⟨by decide, ?_⟩
  unfold pipelineDigest oneShotDigest pipelineRun
  rw [runChunks_state, chunksOf_one, ← List.map_take, flatten_map_singleton,
    List.take_replicate]
  have hmin : min MAX_ITERATIONS 1000001 = 1000000 := by decide
  rw [hmin]
  intro heq
  simp only [initState, hashUpd, finalDigest] at heq
  have hv := congrArg hexToNat heq
  rw [hexToNat_hexStr, hexToNat_hexStr] at hv
  exact crc32c_million_zeros_ne hv

/-- C1 amended: for every finite input byte stream, every supported
algorithm (sha256, crc32c, xxh64, xxh3-64), and every positive chunk
size, provided the input spans at most `MAX_ITERATIONS = 1000000` chunks
at that chunk size (the iteration cap both workers enforce), the digest
produced by the pipeline (producer publishing chunks in source order,
consumer feeding each published chunk to the adapter's update in order,
finalize at EOF) equals the digest obtained by feeding the entire input
to the same algorithm in a single update call.  Inputs spanning more
chunks are truncated to the first `MAX_ITERATIONS` chunks. -/
theorem c1_pipeline_digest_eq_one_shot (algo : Algo) (input : List Nat)
    (chunkSize : Nat) (h : 0 < chunkSize)
    (hcap : (chunksOf chunkSize input).length ≤ MAX_ITERATIONS) :
    pipelineDigest algo input chunkSize = oneShotDigest algo input := by
  unfold pipelineDigest oneShotDigest pipelineRun
  rw [List.take_of_length_le hcap, runChunks_state, chunksOf_join chunkSize input h]

theorem c1_witness :
    (0 < 2 ∧ (chunksOf 2 [1, 2, 3, 4, 5]).length ≤ MAX_ITERATIONS) ∧
      pipelineDigest Algo.crc32c [1, 2, 3, 4, 5] 2 =
        oneShotDigest Algo.crc32c [1, 2, 3, 4, 5] :=
  ⟨⟨by decide, by decide⟩,
   c1_pipeline_digest_eq_one_shot Algo.crc32c [1, 2, 3, 4, 5] 2 (by decide) (by decide)⟩

/-- C2: for an empty input source the pipeline makes zero calls to the
adapter's update operation, performs zero READY→DATA_AVAILABLE
transitions, performs exactly one transition to EOF, and the reported
digest equals the algorithm's defined digest of the empty input (the
one-shot digest of no bytes). -/
theorem c2_empty_input (algo : Algo) (chunkSize : Nat) :
    (pipelineRun algo [] chunkSize).2 = [Ev.eofSig] ∧
    updCallCount (pipelineRun algo [] chunkSize).2 = 0 ∧
    publishCount (pipelineRun algo [] chunkSize).2 = 0 ∧
    eofCount (pipelineRun algo [] chunkSize).2 = 1 ∧
    pipelineDigest algo [] chunkSize = oneShotDigest algo [] := by
  refine ⟨rfl, rfl, rfl, rfl, ?_⟩
  unfold pipelineDigest oneShotDigest pipelineRun
  rw [runChunks_state]
  rfl

/-- C3: on observing DATA_AVAILABLE the consumer reads exactly the first
`length` bytes of the shared buffer and never any byte beyond `length`
(its result is unchanged by any bytes past `length`), feeds them to the
adapter's update — skipping the call entirely when `length = 0` — and
then sets status READY (0) and wakes any waiter. -/
theorem c3_consumer_handles_data (st : HState) (buf buf2 : List Nat) (len : Nat)
    (h : buf.take len = buf2.take len) :
    consumeStep st buf len = consumeStep st buf2 len ∧
    (consumeStep st buf len).2.1 = 0 ∧
    (consumeStep st buf len).2.2.1 = true ∧
    (len = 0 → (consumeStep st buf len).1 = st ∧
      (consumeStep st buf len).2.2.2 = 0) ∧
    (0 < len → (consumeStep st buf len).1 = hashUpd st (buf.take len) ∧
      (consumeStep st buf len).2.2.2 = 1) := by
  by_cases hl : 0 < len
  · have he : consumeStep st buf len = (hashUpd st (buf.take len), 0, true, 1) := by
      unfold consumeStep
      rw [if_pos hl]
    have he2 : consumeStep st buf2 len = (hashUpd st (buf2.take len), 0, true, 1) := by
      unfold consumeStep
      rw [if_pos hl]
    rw [he, he2, h]
    exact ⟨rfl, rfl, rfl, fun h0 => absurd h0 (by omega), fun _ => ⟨rfl, rfl⟩⟩
  · have h0 : len = 0 := by omega
    subst h0
    have he : consumeStep st buf 0 = (st, 0, true, 0) := by
      unfold consumeStep
      rw [if_neg hl]
    have he2 : consumeStep st buf2 0 = (st, 0, true, 0) := by
      unfold consumeStep
      rw [if_neg hl]
    rw [he, he2]
    exact ⟨rfl, rfl, rfl, fun _ => ⟨rfl, rfl⟩, fun hc => absurd hc (by omega)⟩

theorem c3_witness :
    [9, 9, 7].take 2 = [9, 9, 8].take 2 ∧
    consumeStep (HState.crc 0) [9, 9, 7] 2 = consumeStep (HState.crc 0) [9, 9, 8] 2 ∧
    (consumeStep (HState.crc 0) [9, 9, 7] 2).2.1 = 0 :=
  ⟨by decide,
   (c3_consumer_handles_data (HState.crc 0) [9, 9, 7] [9, 9, 8] 2 (by decide)).1,
   (c3_consumer_handles_data (HState.crc 0) [9, 9, 7] [9, 9, 8] 2 (by decide)).2.1⟩

/-- C4 counterexample: the claim that the producer sets EOF only after
having observed the control word return to READY is false.  With a
stalled consumer (status constantly DATA_AVAILABLE and every wait slice
timing out) the pre-EOF wait loop takes its forced break after 11 slices
and the reader proceeds to store EOF while the status it last observed
is still `1` (DATA_AVAILABLE): the unconsumed publication is overwritten
on the normal end-of-stream path. -/
theorem c4_counterexample :
    eofWait (fun _ => 1) (fun _ => true) = (11, true) ∧
    eofWaitExitStatus (fun _ => 1) (fun _ => true) = 1 ∧
    eofWaitExitStatus (fun _ => 1) (fun _ => true) ≠ 0 := by
  refine ⟨by decide, by decide, by decide⟩

/-- C4 amended: when the input source is exhausted the producer waits
for READY before storing EOF, but the wait is best-effort: it stores EOF
anyway after a timed-out wait once more than 10 slices have elapsed
(the forced break), or after 1000 slices; whenever the loop exits
without the forced break and below the 1000-slice cap, the producer did
observe READY.  In all cases it performs no buffer writes after the EOF
store. -/
theorem c4_amended :
    (∀ (obs : Nat → Nat) (tO : Nat → Bool),
      ((eofWait obs tO).2 = false →
        obs (eofWait obs tO).1 = 0 ∨ (eofWait obs tO).1 = 1000) ∧
      ((eofWait obs tO).2 = true →
        10 < (eofWait obs tO).1 ∧ tO (eofWait obs tO).1 = true)) ∧
    (∀ res : PRes,
      (actsAfterEof (producerTrace res)).all (fun a => !isBufWrite a) = true) := by
  constructor
  · intro obs tO
    exact eofWaitGo_exit obs tO 1001 0 (by omega) (by omega)
  · exact no_buf_write_after_eof

theorem c4_witness :
    (0 : Nat) = 0 ∨ (eofWait (fun _ => 0) (fun _ => false)).1 = 1000 :=
  (c4_amended.1 (fun _ => 0) (fun _ => false)).1 (by decide)

/-- C5: if the consumer never transitions the status away from
DATA_AVAILABLE, the producer's pre-publish wait loop exhausts exactly
its 1000-slice retry budget (1000 wait slices of 100 ms each) and then
throws the reader-timeout error instead of waiting indefinitely; the
`catch` path then forces status EOF. -/
theorem c5_producer_timeout_fires (obs chk : Nat → Nat) (tO : Nat → Bool)
    (h1 : ∀ k, obs k = 1) (h2 : ∀ k, chk k = 1) :
    pubWaitRes obs chk tO = (1000, some PErr.producerTimeout) ∧
    (∀ published, finalStatus
      (producerTrace (PRes.failure PErr.producerTimeout published)) = some 2) := by
  constructor
  · unfold pubWaitRes
    rw [pubWaitGo_stalled obs chk tO h1 h2 1001 0 (by omega) (by omega)]
    rfl
  · intro published
    exact finalStatus_producerTrace published

theorem c5_witness :
    pubWaitRes (fun _ => 1) (fun _ => 1) (fun _ => true) =
      (1000, some PErr.producerTimeout) :=
  (c5_producer_timeout_fires (fun _ => 1) (fun _ => 1) (fun _ => true)
    (fun _ => rfl) (fun _ => rfl)).1

/-- C6: the claim says the consumer exhausts a bounded retry budget of
one-second wait slices and exits with failure when no data and no EOF
ever arrives.  The code instead compares the outer chunk counter
`iterations` (stuck at `1` while waiting for the first chunk) against
`100`, so with the status constantly READY the inner wait loop is still
running after every number of wait slices — the consumer waits
indefinitely and the exit-with-failure path is unreachable in this
scenario. -/
theorem c6_consumer_never_times_out (fuel k : Nat) :
    hasherWaitGo (fun _ => 0) (fun _ => 0) (fun _ => true) 1 fuel k =
      WaitOutcome.waiting :=
  hasherWaitGo_never_exits fuel k

/-- C7: on any producer-side failure (source read error, premature EOF
observed from the peer, or wait-timeout exhaustion) the reader's catch
block forces status EOF and wakes the consumer as its final acts before
terminating (with exit code 0). -/
theorem c7_failure_forces_eof_and_wakes (e : PErr) (published : List (List Nat)) :
    finalStatus (producerTrace (PRes.failure e published)) = some 2 ∧
    (producerTrace (PRes.failure e published)).getLast? = some Act.wake ∧
    producerExitCode (PRes.failure e published) = 0 :=
  ⟨finalStatus_producerTrace published, getLast_producerTrace published, rfl⟩

/-- C8 counterexample: the claim that an unsupported algorithm name
fails before any agent starts doing work, with no partial work performed
on the shared buffer or control word, is false.  The hasher does fail
fast (error thrown, no startup acts), but the reader worker is started
concurrently by the orchestrator, receives no algorithm name at all, and
on observing the initial READY status publishes its first chunk —
writing the shared buffer and the control word — regardless of the
algorithm's validity.  Concrete input: algorithm "md5", first chunk
`[65]`. -/
theorem c8_counterexample :
    hasherInit "md5" = Except.error ("Unknown algorithm: " ++ "md5") ∧
    hasherStartActs "md5" = [] ∧
    pubActs [65] = [Act.writeBuf [65], Act.storeLen 1, Act.storeSt 1, Act.wake] ∧
    Act.writeBuf [65] ∈ pubActs [65] := by
  refine ⟨rfl, rfl, rfl, ?_⟩
  simp [pubActs]

/-- C8 amended: selecting an algorithm name outside the supported set
makes the consumer (worker-hasher) fail fast with the
`Unknown algorithm` error before it performs any work on the shared
buffer or control word and before it enters its wait loop; the
concurrently started reader, however, is not prevented from publishing
into the shared buffer before termination. -/
theorem c8_amended (s : String) (h : parseAlgo s = none) :
    hasherInit s = Except.error ("Unknown algorithm: " ++ s) ∧
    hasherStartActs s = [] := by
  have hinit : hasherInit s = Except.error ("Unknown algorithm: " ++ s) := by
    unfold hasherInit
    rw [h]
  refine ⟨hinit, ?_⟩
  unfold hasherStartActs
  rw [hinit]

theorem c8_witness :
    hasherInit "sha1" = Except.error ("Unknown algorithm: " ++ "sha1") ∧
    hasherStartActs "sha1" = [] :=
  c8_amended "sha1" (by decide)

/-- C9 counterexample: digests are not rendered fixed-width.  The
crc32c digest of the empty input renders as `"0"` (one character, not
eight), and the crc32c one-shot digest of the byte `15` renders as seven
characters — `toString(16)` does not zero-pad. -/
theorem c9_counterexample :
    pipelineDigest Algo.crc32c [] 4 = "0" ∧
    (pipelineDigest Algo.crc32c [] 4).length = 1 ∧
    oneShotDigest Algo.crc32c [15] = "c6e6f75" ∧
    (oneShotDigest Algo.crc32c [15]).length = 7 := by
  refine ⟨by decide, by decide, by decide, by decide⟩

/-- C9 amended: every digest the pipeline reports is lowercase
hexadecimal text; the sha256 digest is fixed-width (64 characters); the
numeric digests (crc32c, xxh64, xxh3-64) are rendered by `toString(16)`
from the unsigned value without sign interpretation or precision loss
(the string reads back to the exact value), but at minimal length — they
are NOT zero-padded to their full 8- or 16-character width. -/
theorem c9_amended :
    (∀ st : HState, strIsLowerHex (finalDigest st) = true) ∧
    (∀ acc : List Nat, (finalDigest (HState.sha acc)).length = 64) ∧
    (∀ c : Nat, finalDigest (HState.crc c) = hexStr c ∧
      hexToNat (finalDigest (HState.crc c)) = c) ∧
    (∀ acc : List Nat, finalDigest (HState.x64 acc) = hexStr (xxh64Fn acc) ∧
      hexToNat (finalDigest (HState.x64 acc)) = xxh64Fn acc) ∧
    (∀ acc : List Nat, finalDigest (HState.x3 acc) = hexStr (xxh3Fn acc) ∧
      hexToNat (finalDigest (HState.x3 acc)) = xxh3Fn acc) := by
  refine ⟨?_, ?_, ?_, ?_, ?_⟩
  · intro st
    cases st with
    | sha acc => exact strIsLowerHex_sha256Hex acc
    | crc c => exact strIsLowerHex_hexStr c
    | x64 acc => exact strIsLowerHex_hexStr (xxh64Fn acc)
    | x3 acc => exact strIsLowerHex_hexStr (xxh3Fn acc)
  · intro acc
    exact sha256Hex_length acc
  · intro c
    exact ⟨rfl, hexToNat_hexStr c⟩
  · intro acc
    exact ⟨rfl, hexToNat_hexStr (xxh64Fn acc)⟩
  · intro acc
    exact ⟨rfl, hexToNat_hexStr (xxh3Fn acc)⟩

/-- C10: the reader worker terminates with process exit code 0 on every
execution path — success, iteration-cap break, and all three failure
kinds — and the orchestrator's `readerExitPromise`, which rejects only
on a nonzero exit code, therefore never observes a producer failure
through the exit code. -/
theorem c10_reader_exit_code_always_zero (res : PRes) :
    producerExitCode res = 0 ∧
    readerExitRejects (producerExitCode res) = false :=
  ⟨rfl, rfl⟩
